import Mathlib

/-!
Verification of the schema-directed decoder in `marimo/_utils/parse_dataclass.py`.

The Python module walks type annotations and reconstructs typed values from
untyped (JSON-like) inputs.  We give a shallow embedding:

* `Value` models the Python runtime values the decoder manipulates
  (`None`, `bool`, `int`, `float`, `str`, `bytes`, lists, tuples, dicts,
  enum members and dataclass instances).  Floats are modelled as rationals;
  no claim exercises rounding.
* `Ty` models the resolved type annotation (`cls` in the source).  Note that
  at runtime `Optional[X]` is `Union[X, NoneType]` and
  `get_origin(Optional[X])` is `typing.Union`, so the `origin_cls is
  Optional` branch of the source never fires; optional semantics flow
  through the union branch, and `NoneType` is the `Ty.noneType` descriptor
  handled by the final `isinstance` fallback.
* `build_value` embeds `DataclassParser._build_value`, `build_dataclass`
  embeds `DataclassParser.build_dataclass`; `to_snake` embeds `to_snake`.
* Errors are tracked by kind (`TypeError` / `ValueError` / `AttributeError`)
  because the union branch catches exactly `(TypeError, ValueError)`;
  `ValueError` additionally records which raise site produced it, standing
  in for the source's distinct message strings.

The embedding covers the fragment of the module the verified properties
exercise: `datetime` parsing, `typing.NewType`, `typing.NotRequired` and
`set` types are outside the modelled fragment, and `parse_raw`'s JSON text
parsing is not modelled (claims start from an already-parsed mapping).
-/

namespace ParseDataclass

/-- Python runtime values handled by the decoder.  An enum member records
its enum class name, member name and underlying value; a dataclass
instance records its class name and ordered field assignment. -/
inductive Value where
  | none
  | bool (b : Bool)
  | int (n : Int)
  | float (q : Rat)
  | str (s : String)
  | bytes (bs : List Nat)
  | list (xs : List Value)
  | tuple (xs : List Value)
  | dict (kvs : List (Value × Value))
  | enum (ety : String) (member : String) (val : Value)
  | record (rty : String) (fields : List (String × Value))
  deriving Repr

/-- Numeric view used by Python `==`: `bool` is a subtype of `int` and
compares numerically with `int` and `float`. -/
def numVal : Value → Option Rat
  | .bool b => some (if b then 1 else 0)
  | .int n => some (n : Rat)
  | .float q => some q
  | _ => Option.none

mutual

/-- Python `==` on the modelled values: numeric cross-kind equality for
bool/int/float, structural equality for containers, identity (class plus
member name) for enum members, class-and-fields equality for dataclasses. -/
def pyEq (a b : Value) : Bool :=
  match a, b with
  | .none, .none => true
  | .str s, .str t => s = t
  | .bytes x, .bytes y => x = y
  | .list xs, .list ys => pyEqList xs ys
  | .tuple xs, .tuple ys => pyEqList xs ys
  | .dict d1, .dict d2 => pyDictLe d1 d2 && pyDictLe d2 d1
  | .enum e1 m1 _, .enum e2 m2 _ => e1 = e2 && m1 = m2
  | .record r1 f1, .record r2 f2 => r1 = r2 && pyEqFields f1 f2
  | a, b =>
    match numVal a, numVal b with
    | some x, some y => x = y
    | _, _ => false
termination_by sizeOf a + sizeOf b

/-- Elementwise `==` of two Python sequences of equal kind. -/
def pyEqList (xs ys : List Value) : Bool :=
  match xs, ys with
  | [], [] => true
  | x :: xs, y :: ys => pyEq x y && pyEqList xs ys
  | _, _ => false
termination_by sizeOf xs + sizeOf ys

/-- One inclusion of Python dict equality: every pair of `d1` appears in
`d2` (key matched by `==`, first match wins, values compared by `==`). -/
def pyDictLe (d1 d2 : List (Value × Value)) : Bool :=
  match d1 with
  | [] => true
  | (k, v) :: rest => pyMemVal d2 k v && pyDictLe rest d2
termination_by sizeOf d1 + sizeOf d2

/-- Membership of the pair `(k, v)` in a dict: locate the first pair whose
key `==` `k` and compare its value with `v`. -/
def pyMemVal (kvs : List (Value × Value)) (k v : Value) : Bool :=
  match kvs with
  | [] => false
  | (k2, v2) :: rest => if pyEq k2 k then pyEq v2 v else pyMemVal rest k v
termination_by sizeOf kvs + sizeOf k + sizeOf v

/-- Fieldwise equality of two dataclass field assignments. -/
def pyEqFields (f1 f2 : List (String × Value)) : Bool :=
  match f1, f2 with
  | [], [] => true
  | (n1, v1) :: r1, (n2, v2) :: r2 => n1 = n2 && pyEq v1 v2 && pyEqFields r1 r2
  | _, _ => false
termination_by sizeOf f1 + sizeOf f2

end

/-- Which raise site produced a `ValueError` (the source distinguishes
these by message text). -/
inductive ErrSite where
  | clsNoFit
  | unionNoFit
  | literalNoFit
  | enumNoFit
  | buildNotDict
  | unknownKeys (offending : List String) (expected : List String)
  deriving Repr, DecidableEq

/-- Exception kinds the decoder can raise.  The union branch catches
`typeError` and `valueError` ("try next candidate") and re-raises
everything else, so the kind matters. -/
inductive PyErr where
  | typeError
  | valueError (site : ErrSite)
  | attributeError
  deriving Repr, DecidableEq

/-- Resolved type annotations (`cls`).  `ellipsisType` is the `...` object
in a `Tuple[X, ...]` annotation.  A literal annotation is a nonempty list
of allowed values; an enum type lists its members with their underlying
values; a dataclass type lists its fields in declaration order, each with
its annotation and optional default. -/
inductive Ty where
  | float
  | int
  | str
  | bool
  | bytes
  | noneType
  | any
  | ellipsisType
  | list (t : Ty)
  | tuple (args : List Ty)
  | dict (kt vt : Ty)
  | union (args : List Ty)
  | lit (first : Value) (rest : List Value)
  | enum (ename : String) (members : List (String × Value))
  | record (rname : String) (fields : List (String × Ty × Option Value))
  deriving Repr

/-- `Optional[X]` as it exists at runtime: `Union[X, NoneType]`. -/
def optional (t : Ty) : Ty := .union [t, .noneType]

/-- Embedding of `to_snake`: insert `_` before each upper-case letter and
lower-case it, then strip all leading underscores (`str.lstrip("_")`). -/
def to_snake (s : String) : String :=
  ⟨(s.data.flatMap fun c => if c.isUpper then ['_', c.toLower] else [c]).dropWhile
    fun c => c = '_'⟩

/-- `k.startswith("_")` for a string key. -/
def is_private (s : String) : Bool :=
  match s.data with
  | '_' :: _ => true
  | _ => false

/-- Assignment into a Python dict with string keys: overwrite the value of
the first matching key in place, else append. -/
def strInsert (items : List (String × Value)) (k : String) (v : Value) :
    List (String × Value) :=
  match items with
  | [] => [(k, v)]
  | (k2, w) :: rest =>
    if k2 = k then (k2, v) :: rest else (k2, w) :: strInsert rest k v

/-- Assignment into a Python dict with arbitrary keys: the stored key of
the first `==`-matching pair is kept, its value overwritten; else append. -/
def pyDictInsert (kvs : List (Value × Value)) (k v : Value) :
    List (Value × Value) :=
  match kvs with
  | [] => [(k, v)]
  | (k2, w) :: rest =>
    if pyEq k2 k then (k2, v) :: rest else (k2, w) :: pyDictInsert rest k v

/-- Values that raise `TypeError: unhashable` when used as dict keys
(lists, dicts, and default dataclass instances). -/
def unhashable : Value → Bool
  | .list _ => true
  | .dict _ => true
  | .record _ _ => true
  | _ => false

/-- Association lookup with string keys. -/
def lookupStr (items : List (String × Value)) (k : String) : Option Value :=
  match items with
  | [] => Option.none
  | (k2, v) :: rest => if k2 = k then some v else lookupStr rest k

/-- Lookup of a declared field (its annotation and default) by name,
embedding `types[k]` together with the dataclass default table. -/
def findField (fields : List (String × Ty × Option Value)) (k : String) :
    Option (Ty × Option Value) :=
  match fields with
  | [] => Option.none
  | (n, ty, d) :: rest => if n = k then some (ty, d) else findField rest k

/-- `isinstance(value, cls)` for the modelled classes; `.error ()` stands
for the `TypeError` that `isinstance` raises on subscripted generics and
other non-class annotation forms. -/
def isinstance (v : Value) (t : Ty) : Except Unit Bool :=
  match t with
  | .float => .ok (match v with | .float _ => true | _ => false)
  | .int => .ok (match v with | .int _ => true | .bool _ => true | _ => false)
  | .str => .ok (match v with | .str _ => true | _ => false)
  | .bool => .ok (match v with | .bool _ => true | _ => false)
  | .bytes => .ok (match v with | .bytes _ => true | _ => false)
  | .noneType => .ok (match v with | .none => true | _ => false)
  | .enum en _ => .ok (match v with | .enum en' _ _ => en' = en | _ => false)
  | .record rn _ => .ok (match v with | .record rn' _ => rn' = rn | _ => false)
  | _ => .error ()

/-- The source's variadic-tuple test:
`len(arg_types) == 2 and isinstance(arg_types[1], type(Ellipsis))`. -/
def isVariadic : List Ty → Bool
  | [_, .ellipsisType] => true
  | _ => false

/-- Key normalization pass of `build_dataclass`: iterate the raw items,
crash with `AttributeError` on a non-string key (`k.startswith` on, say, an
int) or with `TypeError` on a bytes key (`bytes.startswith` with a `str`
argument), drop private keys, and insert the rest under their
snake-cased name with Python dict overwrite semantics. -/
def snake_items (kvs : List (Value × Value)) (acc : List (String × Value)) :
    Except PyErr (List (String × Value)) :=
  match kvs with
  | [] => .ok acc
  | (k, v) :: rest =>
    match k with
    | .str s =>
      if is_private s then snake_items rest acc
      else snake_items rest (strInsert acc (to_snake s) v)
    | .bytes _ => .error .typeError
    | _ => .error .attributeError

/-- `cls(**transformed)` field binding: every declared field takes its
transformed value when present, else its declared default, else the call
raises `TypeError` (missing required argument). -/
def construct_fields (fields : List (String × Ty × Option Value))
    (tr : List (String × Value)) : Except PyErr (List (String × Value)) :=
  match fields with
  | [] => .ok []
  | (n, ty, d) :: rest =>
    match lookupStr tr n with
    | some r =>
      match construct_fields rest tr with
      | .ok tl => .ok ((n, r) :: tl)
      | .error e => .error e
    | Option.none =>
      match d with
      | some dv =>
        match construct_fields rest tr with
        | .ok tl => .ok ((n, dv) :: tl)
        | .error e => .error e
      | Option.none => .error .typeError

/-- `cls(**transformed)`: build the dataclass instance. -/
def construct_record (rn : String) (fields : List (String × Ty × Option Value))
    (tr : List (String × Value)) : Except PyErr Value :=
  match construct_fields fields tr with
  | .ok fs => .ok (.record rn fs)
  | .error e => .error e

/-- By-value enum lookup, the fallback of `EnumClass(value)`: the first
member whose underlying value `==` the argument. -/
def enum_lookup (en : String) (members : List (String × Value)) (v : Value) :
    Except PyErr Value :=
  match members.find? fun p => pyEq p.2 v with
  | some (m, mv) => .ok (.enum en m mv)
  | Option.none => .error (.valueError .enumNoFit)

/-- `EnumClass(value)`: a member of the same enum class is returned
unchanged; otherwise look the member up by value, else `ValueError`. -/
def enum_call (en : String) (members : List (String × Value)) (v : Value) :
    Except PyErr Value :=
  match v with
  | .enum en' m u =>
    if en' = en then .ok (.enum en' m u) else enum_lookup en members v
  | _ => enum_lookup en members v

/-- `value in arg_types` for a literal annotation (`in` compares with
`==`), returning the raw value itself on success. -/
def literal_member (first : Value) (rest : List Value) (v : Value) :
    Except PyErr Value :=
  if (first :: rest).any fun a => pyEq a v then .ok v
  else .error (.valueError .literalNoFit)

/-- The `Literal` branch: a singleton literal holding an enum member whose
underlying value `==` the raw value yields the member itself; otherwise
membership of the raw value in the allowed values. -/
def literal_call (first : Value) (rest : List Value) (v : Value) :
    Except PyErr Value :=
  match rest, first with
  | [], .enum e m u =>
    if pyEq u v then .ok (.enum e m u) else literal_member (.enum e m u) [] v
  | _, _ => literal_member first rest v

/-- Dict keys admitted by the `dict(**mapping)` rebuild (keyword splat):
only strings. -/
def isStrKey : Value → Bool
  | .str _ => true
  | _ => false

theorem Ty.sizeOf_pos (t : Ty) : 0 < sizeOf t := by
  cases t <;> simp_arith

theorem findField_sizeOf {fields : List (String × Ty × Option Value)}
    {k : String} {ty : Ty} {d : Option Value}
    (h : findField fields k = some (ty, d)) : sizeOf ty < sizeOf fields := by
  induction fields with
  | nil => simp [findField] at h
  | cons f rest ih =>
    obtain ⟨n, fty, fd⟩ := f
    rw [findField] at h
    by_cases hk : n = k
    · simp only [hk, if_pos rfl] at h
      cases h
      simp_arith
    · simp only [if_neg hk] at h
      have := ih h
      simp_arith
      omega

mutual

/-- Embedding of `DataclassParser._build_value`, arm for arm in source
order: the five primitive exact matches (`bool` counts as `int`), the
`Any` passthrough, the unconditional dataclass-instance passthrough, then
dispatch on the origin of the annotation (list, tuple, dict, union,
literal), enum construction, nested dataclass build, and finally the
`isinstance` fallback, whose `TypeError` is swallowed and turned into the
source's closing `ValueError`. -/
def build_value (allow : Bool) (t : Ty) (v : Value) : Except PyErr Value :=
  match t, v with
  | .float, .int n => .ok (.float (n : Rat))
  | .float, .float q => .ok (.float q)
  | .float, .bool b => .ok (.float (if b then 1 else 0))
  | .int, .int n => .ok (.int n)
  | .int, .bool b => .ok (.int (if b then 1 else 0))
  | .str, .str s => .ok (.str s)
  | .bool, .bool b => .ok (.bool b)
  | .bytes, .bytes bs => .ok (.bytes bs)
  | .any, v => .ok v
  | _, .record rn fs => .ok (.record rn fs)
  | .list t', .list xs =>
    match build_value_list allow t' xs with
    | .ok rs => .ok (.list rs)
    | .error e => .error e
  | .list t', .tuple xs =>
    match build_value_list allow t' xs with
    | .ok rs => .ok (.list rs)
    | .error e => .error e
  | .tuple args, .tuple xs => build_tuple allow args xs
  | .tuple args, .list xs => build_tuple allow args xs
  | .dict kt vt, .dict kvs =>
    match build_value_pairs allow kt vt kvs [] with
    | .ok acc =>
      if acc.all fun p => isStrKey p.1 then .ok (.dict acc)
      else .error .typeError
    | .error e => .error e
  | .union args, v => build_value_union allow args v
  | .lit first rest, v => literal_call first rest v
  | .enum en members, v => enum_call en members v
  | .record rn fields, v => build_dataclass allow rn fields v
  | t, v =>
    match isinstance v t with
    | .ok true => .ok v
    | _ => .error (.valueError .clsNoFit)
termination_by (sizeOf t, 1, 0)
decreasing_by
  all_goals simp_wf
  all_goals first
    | (apply Prod.Lex.left; simp_arith)
    | (apply Prod.Lex.left; omega)

/-- Elementwise decode of a sequence against a single element type
(the `list`/variadic-tuple recursion). -/
def build_value_list (allow : Bool) (t : Ty) (vs : List Value) :
    Except PyErr (List Value) :=
  match vs with
  | [] => .ok []
  | v :: rest =>
    match build_value allow t v with
    | .ok r =>
      match build_value_list allow t rest with
      | .ok rs => .ok (r :: rs)
      | .error e => .error e
    | .error e => .error e
termination_by (sizeOf t, 2, sizeOf vs)
decreasing_by
  all_goals simp_wf
  · apply Prod.Lex.right; apply Prod.Lex.left; omega
  · apply Prod.Lex.right; apply Prod.Lex.right; simp_arith

/-- The tuple branch: a variadic `Tuple[X, ...]` decodes every element
against `X`; otherwise `zip(value, arg_types)` decodes pairwise and
silently truncates to the shorter of the two. -/
def build_tuple (allow : Bool) (args : List Ty) (xs : List Value) :
    Except PyErr Value :=
  match args with
  | [t', .ellipsisType] =>
    match build_value_list allow t' xs with
    | .ok rs => .ok (.tuple rs)
    | .error e => .error e
  | other =>
    match build_value_zip allow xs other with
    | .ok rs => .ok (.tuple rs)
    | .error e => .error e
termination_by (sizeOf args, 3, 0)
decreasing_by
  all_goals simp_wf
  · apply Prod.Lex.left; simp_arith
  · apply Prod.Lex.right; apply Prod.Lex.left; omega

/-- `zip(value, arg_types)` pairwise decode: stops at the shorter list. -/
def build_value_zip (allow : Bool) (xs : List Value) (ts : List Ty) :
    Except PyErr (List Value) :=
  match xs, ts with
  | v :: vrest, t :: trest =>
    match build_value allow t v with
    | .ok r =>
      match build_value_zip allow vrest trest with
      | .ok rs => .ok (r :: rs)
      | .error e => .error e
    | .error e => .error e
  | _, _ => .ok []
termination_by (sizeOf ts, 2, 0)
decreasing_by
  all_goals simp_wf
  · apply Prod.Lex.left; simp_arith
  · apply Prod.Lex.left; simp_arith

/-- The dict-comprehension of the dict branch: decode each key and value
in order, fail on an unhashable decoded key, and collect with Python dict
overwrite semantics. -/
def build_value_pairs (allow : Bool) (kt vt : Ty) (kvs : List (Value × Value))
    (acc : List (Value × Value)) : Except PyErr (List (Value × Value)) :=
  match kvs with
  | [] => .ok acc
  | (k, v) :: rest =>
    match build_value allow kt k with
    | .error e => .error e
    | .ok k' =>
      match build_value allow vt v with
      | .error e => .error e
      | .ok v' =>
        if unhashable k' then .error .typeError
        else build_value_pairs allow kt vt rest (pyDictInsert acc k' v')
termination_by (sizeOf kt + sizeOf vt, 0, sizeOf kvs)
decreasing_by
  all_goals simp_wf
  · apply Prod.Lex.left
    have := Ty.sizeOf_pos vt
    omega
  · apply Prod.Lex.left
    have := Ty.sizeOf_pos kt
    omega
  · apply Prod.Lex.right; apply Prod.Lex.right; simp_arith

/-- The union branch: try candidates in declared order; `TypeError` and
`ValueError` mean "try the next candidate", anything else re-raises; when
the candidates are exhausted, raise the union `ValueError`. -/
def build_value_union (allow : Bool) (args : List Ty) (v : Value) :
    Except PyErr Value :=
  match args with
  | [] => .error (.valueError .unionNoFit)
  | t :: rest =>
    match build_value allow t v with
    | .ok r => .ok r
    | .error .attributeError => .error .attributeError
    | .error _ => build_value_union allow rest v
termination_by (sizeOf args, 2, 0)
decreasing_by
  all_goals simp_wf
  · apply Prod.Lex.left; simp_arith
  · apply Prod.Lex.left; simp_arith

/-- Embedding of `DataclassParser.build_dataclass`: require a dict,
normalize the keys, reject unknown keys when tolerance is off (reporting
the offending normalized keys and the accepted field set), decode the
known fields in input order, and construct the instance. -/
def build_dataclass (allow : Bool) (rn : String)
    (fields : List (String × Ty × Option Value)) (v : Value) :
    Except PyErr Value :=
  match v with
  | .dict kvs =>
    match snake_items kvs [] with
    | .error e => .error e
    | .ok items =>
      let off := (items.map Prod.fst).filter fun k => (findField fields k).isNone
      if !allow && !off.isEmpty then
        .error (.valueError (.unknownKeys off (fields.map fun f => f.1)))
      else
        match build_fields allow fields items with
        | .error e => .error e
        | .ok tr => construct_record rn fields tr
  | _ => .error (.valueError .buildNotDict)
termination_by (sizeOf fields, 3, 0)
decreasing_by
  simp_wf
  apply Prod.Lex.right; apply Prod.Lex.left; omega

/-- The `transformed` comprehension of `build_dataclass`: decode each
normalized item that names a declared field against that field's
annotation; items naming no field are skipped. -/
def build_fields (allow : Bool) (fields : List (String × Ty × Option Value))
    (items : List (String × Value)) : Except PyErr (List (String × Value)) :=
  match items with
  | [] => .ok []
  | (k, v) :: rest =>
    match h : findField fields k with
    | some (fty, _) =>
      match build_value allow fty v with
      | .error e => .error e
      | .ok r =>
        match build_fields allow fields rest with
        | .error e => .error e
        | .ok tl => .ok ((k, r) :: tl)
    | Option.none => build_fields allow fields rest
termination_by (sizeOf fields, 2, sizeOf items)
decreasing_by
  all_goals simp_wf
  · apply Prod.Lex.left
    exact findField_sizeOf h
  · apply Prod.Lex.right; apply Prod.Lex.right; simp_arith
  · apply Prod.Lex.right; apply Prod.Lex.right; simp_arith

end

mutual
/-- Annotations that contain no nested dataclass (record) type: decoding
against them can never enter `build_dataclass`. -/
def recFree (t : Ty) : Bool :=
  match t with
  | .list t' => recFree t'
  | .tuple args => recFreeList args
  | .dict kt vt => recFree kt && recFree vt
  | .union args => recFreeList args
  | .record _ _ => false
  | _ => true
termination_by sizeOf t

def recFreeList (args : List Ty) : Bool :=
  match args with
  | [] => true
  | t :: rest => recFree t && recFreeList rest
termination_by sizeOf args
end

/-- Field tables whose annotations contain no nested dataclass type. -/
def recFreeFields (fields : List (String × Ty × Option Value)) : Bool :=
  fields.all fun f => recFree f.2.1


/-! ### Helper lemmas -/

/-- The error kinds the union branch treats as "try the next candidate":
exactly `TypeError` and `ValueError`. -/
def mismatch (e : PyErr) : Prop := e = .typeError ∨ ∃ s, e = .valueError s

theorem value_record_cases (v : Value) :
    (∃ rn fs, v = .record rn fs) ∨ ∀ rn fs, v ≠ .record rn fs := by
  cases v <;> simp

/-- The dataclass-instance passthrough of `_build_value` fires before any
inspection of the target annotation: a dataclass instance is returned
unchanged whatever the target type. -/
theorem record_passthrough (allow : Bool) (t : Ty) (rn : String)
    (fs : List (String × Value)) :
    build_value allow t (.record rn fs) = .ok (.record rn fs) := by
  cases t <;> simp [build_value]

theorem char_isLower_not_isUpper {c : Char} (h : c.isLower = true) :
    c.isUpper = false := by
  simp only [Char.isLower, Bool.and_eq_true, decide_eq_true_eq] at h
  simp only [Char.isUpper]
  have hn : ¬ c.val ≤ 90 := by
    intro hle
    exact absurd (UInt32.le_trans h.1 hle) (by decide)
  simp [hn]

theorem char_isLower_ne_underscore {c : Char} (h : c.isLower = true) :
    c ≠ '_' := by
  intro he
  subst he
  simp [Char.isLower] at h

theorem flatMap_no_upper (l : List Char) (h : ∀ c ∈ l, c.isUpper = false) :
    (l.flatMap fun c => if c.isUpper then ['_', c.toLower] else [c]) = l := by
  induction l with
  | nil => rfl
  | cons a l ih => simp [h a (by simp), ih fun c hc => h c (by simp [hc])]

theorem dropWhile_head_false {α : Type} (p : α → Bool) (l : List α) {c : α}
    (h : (l.dropWhile p).head? = some c) : p c = false := by
  induction l with
  | nil => simp [List.dropWhile] at h
  | cons a l ih =>
    rw [List.dropWhile] at h
    cases hpa : p a with
    | true => rw [hpa] at h; exact ih h
    | false => rw [hpa] at h; simp at h; subst h; exact hpa

/-! ### C1: key normalization -/

/-- C1 (amended).  `to_snake` maps `"someFieldName"` to
`"some_field_name"`; an all-lowercase key is unchanged; but because of the
closing `lstrip("_")`, the result never starts with an underscore — in
particular a leading-capital key loses the underscore inserted before its
first letter, e.g. `"Some"` becomes `"some"`, not `"_some"`. -/
theorem c1_to_snake_normalization :
    to_snake "someFieldName" = "some_field_name" ∧
    (∀ s : String, (∀ c ∈ s.data, c.isLower = true) → to_snake s = s) ∧
    (∀ (s : String) (c : Char), (to_snake s).data.head? = some c → c ≠ '_') ∧
    to_snake "Some" = "some" := by
  refine ⟨by decide, ?_, ?_, by decide⟩
  · intro s h
    have hflat : (s.data.flatMap fun c =>
        if c.isUpper then ['_', c.toLower] else [c]) = s.data :=
      flatMap_no_upper s.data fun c hc => char_isLower_not_isUpper (h c hc)
    have hdrop : (s.data.dropWhile fun c => c = '_') = s.data := by
      cases hd : s.data with
      | nil => rfl
      | cons a l =>
        rw [List.dropWhile]
        have : a ≠ '_' := char_isLower_ne_underscore (h a (by rw [hd]; simp))
        simp [this]
    show String.mk _ = s
    rw [hflat, hdrop]
  · intro s c h
    have := dropWhile_head_false (fun c => c = '_') _ h
    simpa using this

/-- C1 counterexample to the claim as stated: a key whose first character
is a capital letter does not normalize to a name with a leading
underscore; the `lstrip("_")` removes it. -/
theorem c1_leading_capital_no_underscore :
    to_snake "Some" = "some" ∧ (to_snake "Some").data.head? ≠ some '_' := by
  constructor <;> decide

/-- C1 witness: the universal parts of `c1_to_snake_normalization`
evaluated at concrete keys. -/
theorem c1_witness :
    to_snake "knownkey" = "knownkey" ∧ ('s' : Char) ≠ '_' := by
  constructor
  · exact c1_to_snake_normalization.2.1 "knownkey" (by decide)
  · exact c1_to_snake_normalization.2.2.1 "Some" 's' (by decide)

/-! ### C2: the already-constructed-record passthrough -/

/-- C2 counterexample: a raw value that is an instance of a *different*
dataclass type than the target is still passed through unchanged — the
source tests `dataclasses.is_dataclass(value)` without comparing classes. -/
theorem c2_other_record_passed_through :
    build_value false (.record "B" [("x", .int, Option.none)])
      (.record "A" [("y", .str "s")]) = .ok (.record "A" [("y", .str "s")]) ∧
    "A" ≠ "B" := by
  constructor
  · simp [build_value]
  · decide

/-- C2 (amended).  The passthrough fires for every dataclass instance,
whatever the target annotation: decoding it returns it unchanged. -/
theorem c2_record_passthrough_unconditional :
    ∀ (allow : Bool) (t : Ty) (rn : String) (fs : List (String × Value)),
      build_value allow t (.record rn fs) = .ok (.record rn fs) :=
  fun allow t rn fs => record_passthrough allow t rn fs

/-! ### Union branch lemmas -/

theorem union_skip (allow : Bool) (t : Ty) (rest : List Ty) (v : Value)
    (e : PyErr) (he : build_value allow t v = .error e) (hm : mismatch e) :
    build_value_union allow (t :: rest) v = build_value_union allow rest v := by
  rcases hm with h | ⟨s, h⟩ <;> subst h <;> simp [build_value_union, he]

theorem union_first_ok (allow : Bool) (pre : List Ty) (t : Ty) (post : List Ty)
    (v : Value) (r : Value)
    (hpre : ∀ t' ∈ pre, ∃ e, build_value allow t' v = .error e ∧ mismatch e)
    (h : build_value allow t v = .ok r) :
    build_value_union allow (pre ++ t :: post) v = .ok r := by
  induction pre with
  | nil => simp [build_value_union, h]
  | cons a l ih =>
    obtain ⟨e, he, hm⟩ := hpre a (by simp)
    rw [List.cons_append, union_skip allow a _ v e he hm]
    exact ih fun t' ht' => hpre t' (by simp [ht'])

theorem union_first_raise (allow : Bool) (pre : List Ty) (t : Ty)
    (post : List Ty) (v : Value)
    (hpre : ∀ t' ∈ pre, ∃ e, build_value allow t' v = .error e ∧ mismatch e)
    (h : build_value allow t v = .error .attributeError) :
    build_value_union allow (pre ++ t :: post) v = .error .attributeError := by
  induction pre with
  | nil => simp [build_value_union, h]
  | cons a l ih =>
    obtain ⟨e, he, hm⟩ := hpre a (by simp)
    rw [List.cons_append, union_skip allow a _ v e he hm]
    exact ih fun t' ht' => hpre t' (by simp [ht'])

theorem union_exhaust (allow : Bool) (args : List Ty) (v : Value)
    (h : ∀ t' ∈ args, ∃ e, build_value allow t' v = .error e ∧ mismatch e) :
    build_value_union allow args v = .error (.valueError .unionNoFit) := by
  induction args with
  | nil => simp [build_value_union]
  | cons a l ih =>
    obtain ⟨e, he, hm⟩ := h a (by simp)
    rw [union_skip allow a _ v e he hm]
    exact ih fun t' ht' => h t' (by simp [ht'])

theorem union_lift (allow : Bool) (args : List Ty) (v : Value)
    (hv : ∀ rn fs, v ≠ .record rn fs) :
    build_value allow (.union args) v = build_value_union allow args v := by
  cases v <;> simp [build_value]
  exact absurd rfl (hv _ _)

/-! ### C5: union candidate resolution -/

/-- C5.  The union branch tries candidates in declared order and returns
the first success; a `TypeError`/`ValueError` failure means "try the next
candidate" while any other exception (e.g. the `AttributeError` a
non-string dict key raises inside a nested dataclass build) propagates
immediately; when every candidate fails with a type/value mismatch the
union `ValueError` is raised; and decoding `"5"` against `Union[int, str]`
yields the string `"5"` via the `str` candidate. -/
theorem c5_union_semantics :
    (∀ (allow : Bool) (pre : List Ty) (t : Ty) (post : List Ty)
        (v : Value) (r : Value),
      (∀ t' ∈ pre, ∃ e, build_value allow t' v = .error e ∧ mismatch e) →
      build_value allow t v = .ok r →
      build_value allow (.union (pre ++ t :: post)) v = .ok r) ∧
    (∀ (allow : Bool) (pre : List Ty) (t : Ty) (post : List Ty) (v : Value),
      (∀ t' ∈ pre, ∃ e, build_value allow t' v = .error e ∧ mismatch e) →
      build_value allow t v = .error .attributeError →
      build_value allow (.union (pre ++ t :: post)) v
        = .error .attributeError) ∧
    (∀ (allow : Bool) (args : List Ty) (v : Value),
      args ≠ [] →
      (∀ t' ∈ args, ∃ e, build_value allow t' v = .error e ∧ mismatch e) →
      build_value allow (.union args) v = .error (.valueError .unionNoFit)) ∧
    build_value false (.union [.int, .str]) (.str "5") = .ok (.str "5") := by
  refine ⟨?_, ?_, ?_, ?_⟩
  · intro allow pre t post v r hpre h
    rcases value_record_cases v with ⟨rn, fs, rfl⟩ | hv
    · cases pre with
      | nil =>
        rw [record_passthrough allow t rn fs] at h
        rw [record_passthrough allow _ rn fs]
        exact h
      | cons a l =>
        obtain ⟨e, he, _⟩ := hpre a (by simp)
        rw [record_passthrough allow a rn fs] at he
        exact absurd he (by simp)
    · rw [union_lift allow _ v hv]
      exact union_first_ok allow pre t post v r hpre h
  · intro allow pre t post v hpre h
    rcases value_record_cases v with ⟨rn, fs, rfl⟩ | hv
    · rw [record_passthrough allow t rn fs] at h
      exact absurd h (by simp)
    · rw [union_lift allow _ v hv]
      exact union_first_raise allow pre t post v hpre h
  · intro allow args v hne h
    rcases value_record_cases v with ⟨rn, fs, rfl⟩ | hv
    · cases args with
      | nil => exact absurd rfl hne
      | cons a l =>
        obtain ⟨e, he, _⟩ := h a (by simp)
        rw [record_passthrough allow a rn fs] at he
        exact absurd he (by simp)
    · rw [union_lift allow _ v hv]
      exact union_exhaust allow args v h
  · simp [build_value, build_value_union, isinstance]

/-- C5 witness: the three universal parts applied at concrete inputs —
first-success on `Union[int, str]` with `"5"`, immediate propagation of an
`AttributeError` raised by the first candidate (so the `int` candidate is
never consulted), and exhaustion on `Union[int, bool]` with `"x"`. -/
theorem c5_witness :
    build_value false (.union [.int, .str]) (.str "5") = .ok (.str "5") ∧
    build_value false (.union [.record "R" [("a", .int, Option.none)], .int])
      (.dict [(.int 1, .int 2)]) = .error .attributeError ∧
    build_value false (.union [.int, .bool]) (.str "x")
      = .error (.valueError .unionNoFit) := by
  refine ⟨?_, ?_, ?_⟩
  · exact c5_union_semantics.1 false [.int] .str [] (.str "5") (.str "5")
      (by
        intro t' ht'
        simp only [List.mem_singleton] at ht'
        subst ht'
        exact ⟨.valueError .clsNoFit, by simp [build_value, isinstance],
          Or.inr ⟨_, rfl⟩⟩)
      (by simp [build_value])
  · exact c5_union_semantics.2.1 false [] (.record "R" [("a", .int, Option.none)])
      [.int] (.dict [(.int 1, .int 2)]) (by simp)
      (by simp [build_value, build_dataclass, snake_items])
  · exact c5_union_semantics.2.2.1 false [.int, .bool] (.str "x") (by simp)
      (by
        intro t' ht'
        have h2 : t' = .int ∨ t' = .bool := by simpa using ht'
        rcases h2 with rfl | rfl
        · exact ⟨.valueError .clsNoFit, by simp [build_value, isinstance],
            Or.inr ⟨_, rfl⟩⟩
        · exact ⟨.valueError .clsNoFit, by simp [build_value, isinstance],
            Or.inr ⟨_, rfl⟩⟩)

/-! ### C8: Optional handling -/

/-- C8 counterexample to the general claim: decoding the null sentinel
against `Optional[E]` where `E` is an enum with a member whose underlying
value is `None` yields that member, not the null sentinel — the inner
candidate is tried first (at runtime `Optional[X]` is `Union[X, NoneType]`
and the dedicated `origin_cls is Optional` branch never fires). -/
theorem c8_optional_enum_none :
    build_value false (optional (.enum "E" [("NULL", Value.none)])) Value.none
      = .ok (.enum "E" "NULL" Value.none) ∧
    Except.ok (Value.enum "E" "NULL" Value.none)
      ≠ (Except.ok Value.none : Except PyErr Value) := by
  constructor
  · simp [build_value, optional, build_value_union, enum_call, enum_lookup,
      pyEq]
  · simp

/-- C8 (amended).  `Optional[int]` decodes the null sentinel to the null
sentinel and `3` to `3`; in general, decoding null against
`Optional[T]` returns null provided decoding null against `T` itself
fails with a type/value mismatch (an inner type that accepts null, such
as an enum with a null-valued member, wins instead), and any value the
inner type decodes successfully decodes to that same result against the
wrapper. -/
theorem c8_optional_handling :
    (∀ allow : Bool,
      build_value allow (optional .int) Value.none = .ok Value.none) ∧
    (∀ allow : Bool,
      build_value allow (optional .int) (.int 3) = .ok (.int 3)) ∧
    (∀ (allow : Bool) (t : Ty) (e : PyErr),
      build_value allow t Value.none = .error e → mismatch e →
      build_value allow (optional t) Value.none = .ok Value.none) ∧
    (∀ (allow : Bool) (t : Ty) (v : Value) (r : Value),
      build_value allow t v = .ok r →
      build_value allow (optional t) v = .ok r) := by
  refine ⟨?_, ?_, ?_, ?_⟩
  · intro allow
    simp [build_value, optional, build_value_union, isinstance]
  · intro allow
    simp [build_value, optional, build_value_union]
  · intro allow t e he hm
    rw [optional, union_lift allow _ Value.none (by simp)]
    rw [show ([t, .noneType] : List Ty) = t :: [.noneType] from rfl,
      union_skip allow t _ Value.none e he hm]
    simp [build_value_union, build_value, isinstance]
  · intro allow t v r h
    rcases value_record_cases v with ⟨rn, fs, rfl⟩ | hv
    · rw [record_passthrough allow t rn fs] at h
      rw [optional, record_passthrough allow _ rn fs]
      exact h
    · rw [optional, union_lift allow _ v hv]
      simp [build_value_union, h]

/-- C8 witness: the hypothesized parts of `c8_optional_handling`
instantiated at `T = int` with null and `3`. -/
theorem c8_witness :
    build_value false (optional .int) Value.none = .ok Value.none ∧
    build_value false (optional .int) (.int 3) = .ok (.int 3) := by
  constructor
  · exact c8_optional_handling.2.2.1 false .int (.valueError .clsNoFit)
      (by simp [build_value, isinstance]) (Or.inr ⟨_, rfl⟩)
  · exact c8_optional_handling.2.2.2 false .int (.int 3) (.int 3)
      (by simp [build_value])

/-! ### C3: tuple arity -/

theorem except_ok_bind {α β : Type} (a : α) (f : α → Except PyErr β) :
    (Except.ok a >>= f) = f a := rfl

theorem except_error_bind {α β : Type} (e : PyErr) (f : α → Except PyErr β) :
    ((Except.error e : Except PyErr α) >>= f) = .error e := rfl

theorem zip_decode_eq_mapM (allow : Bool) (xs : List Value) (ts : List Ty) :
    build_value_zip allow xs ts
      = (xs.zip ts).mapM fun p => build_value allow p.2 p.1 := by
  induction xs generalizing ts with
  | nil =>
    simp only [build_value_zip]
    rfl
  | cons x xs ih =>
    cases ts with
    | nil =>
      simp only [build_value_zip]
      rfl
    | cons t ts =>
      rw [List.zip_cons_cons, List.mapM_cons]
      cases h : build_value allow t x with
      | ok r =>
        simp only [build_value_zip, h, except_ok_bind, ih]
        cases hz : (xs.zip ts).mapM fun p => build_value allow p.2 p.1 <;>
          simp [hz, except_ok_bind, except_error_bind]
      | error e => simp [build_value_zip, h, except_error_bind]

theorem tuple_nonvariadic (allow : Bool) (args : List Ty) (xs : List Value)
    (h : isVariadic args = false) :
    build_tuple allow args xs
      = match build_value_zip allow xs args with
        | .ok rs => .ok (.tuple rs)
        | .error e => .error e := by
  rw [build_tuple.eq_def]
  split
  · simp [isVariadic] at h
  · rfl

theorem match_tuple_eq_map (m : Except PyErr (List Value)) :
    (match m with
      | .ok rs => (.ok (.tuple rs) : Except PyErr Value)
      | .error e => .error e) = Value.tuple <$> m := by
  cases m <;> rfl

/-- C3 (amended).  A fixed-arity tuple descriptor decodes a raw sequence
by `zip(value, arg_types)`: elements are decoded pairwise by position, but
the pairing stops at the shorter of the raw length and the declared arity
— surplus raw elements or surplus declared positions are silently dropped
and no arity mismatch is ever reported. -/
theorem c3_tuple_zip_truncates :
    ∀ (allow : Bool) (args : List Ty) (xs : List Value),
      isVariadic args = false →
      build_value allow (.tuple args) (.tuple xs)
          = Value.tuple <$> ((xs.zip args).mapM fun p => build_value allow p.2 p.1) ∧
      build_value allow (.tuple args) (.list xs)
          = Value.tuple <$> ((xs.zip args).mapM fun p => build_value allow p.2 p.1) := by
  intro allow args xs h
  constructor
  · rw [show build_value allow (.tuple args) (.tuple xs)
        = build_tuple allow args xs by simp [build_value]]
    rw [tuple_nonvariadic allow args xs h, zip_decode_eq_mapM,
      match_tuple_eq_map]
  · rw [show build_value allow (.tuple args) (.list xs)
        = build_tuple allow args xs by simp [build_value]]
    rw [tuple_nonvariadic allow args xs h, zip_decode_eq_mapM,
      match_tuple_eq_map]

/-- C3 counterexample: decoding a 3-element raw sequence against the
fixed-arity descriptor `Tuple[int, int]` does not fail with a type
mismatch — it silently truncates to the first two elements. -/
theorem c3_arity_mismatch_not_rejected :
    build_value false (.tuple [.int, .int]) (.list [.int 1, .int 2, .int 3])
      = .ok (.tuple [.int 1, .int 2]) := by
  simp [build_value, build_tuple, build_value_zip]

/-- C3 witness: `c3_tuple_zip_truncates` evaluated on the concrete
counterexample shape. -/
theorem c3_witness :
    build_value false (.tuple [.int, .int]) (.list [.int 1, .int 2, .int 3])
      = Value.tuple <$>
        (([Value.int 1, Value.int 2, Value.int 3].zip [Ty.int, Ty.int]).mapM
          fun p => build_value false p.2 p.1) :=
  (c3_tuple_zip_truncates false [.int, .int]
    [.int 1, .int 2, .int 3] rfl).2

/-! ### C4: mapping rebuild -/

/-- C4 (amended).  A mapping descriptor decodes every key against the
declared key type and every value against the declared value type, and
rebuilds the mapping from exactly the decoded pairs — but the rebuild is
`dict(**mapping)`, a keyword splat, so it only succeeds when every decoded
key is a string; a non-string decoded key raises `TypeError`. -/
theorem c4_dict_rebuild :
    ∀ (allow : Bool) (kt vt : Ty) (kvs acc : List (Value × Value)),
      build_value_pairs allow kt vt kvs [] = .ok acc →
      ((∀ p ∈ acc, isStrKey p.1 = true) →
        build_value allow (.dict kt vt) (.dict kvs) = .ok (.dict acc)) ∧
      ((¬ ∀ p ∈ acc, isStrKey p.1 = true) →
        build_value allow (.dict kt vt) (.dict kvs) = .error .typeError) := by
  intro allow kt vt kvs acc h
  constructor
  · intro hstr
    have hall : (acc.all fun p => isStrKey p.1) = true :=
      List.all_eq_true.2 hstr
    simp [build_value, h, hall]
  · intro hstr
    have hall : (acc.all fun p => isStrKey p.1) = false := by
      cases hq : acc.all fun p => isStrKey p.1
      · rfl
      · exact absurd (List.all_eq_true.1 hq) hstr
    simp [build_value, h, hall]

/-- C4 counterexample: decoding `{1: "a"}` against `Dict[int, str]`
decodes the key to the integer `1`, and the keyword-splat rebuild then
fails with `TypeError` instead of returning a mapping with an integer
key. -/
theorem c4_nonstring_key_rejected :
    build_value false (.dict .int .str) (.dict [(.int 1, .str "a")])
      = .error .typeError := by
  simp [build_value, build_value_pairs, pyDictInsert, unhashable, isStrKey]

/-- C4 witness: `c4_dict_rebuild` applied to a string-keyed mapping
(success with exactly the decoded pairs) and to an integer-keyed mapping
(`TypeError`). -/
theorem c4_witness :
    build_value false (.dict .str .int) (.dict [(.str "a", .int 1)])
      = .ok (.dict [(.str "a", .int 1)]) ∧
    build_value false (.dict .int .str) (.dict [(.int 1, .str "a")])
      = .error .typeError := by
  constructor
  · exact (c4_dict_rebuild false .str .int [(.str "a", .int 1)]
        [(.str "a", .int 1)]
        (by simp [build_value_pairs, build_value, pyDictInsert, unhashable])).1
      (by simp [isStrKey])
  · exact (c4_dict_rebuild false .int .str [(.int 1, .str "a")]
        [(.int 1, .str "a")]
        (by simp [build_value_pairs, build_value, pyDictInsert, unhashable])).2
      (by simp [isStrKey])

/-! ### C7: literal descriptors -/

theorem lit_lift (allow : Bool) (first : Value) (rest : List Value) (v : Value)
    (hv : ∀ rn fs, v ≠ .record rn fs) :
    build_value allow (.lit first rest) v = literal_call first rest v := by
  cases v <;> simp [build_value]
  exact absurd rfl (hv _ _)

/-- C7 (amended).  For a raw value that is not a dataclass instance, the
literal branch behaves as claimed: a singleton literal holding an enum
member whose underlying value equals the raw value yields the member
itself; otherwise the raw value is returned unchanged when it is among the
allowed values (membership by Python `==`) and the literal `ValueError` is
raised when it is not.  A dataclass-instance raw value, however, is passed
through unchanged by the earlier dataclass passthrough even when it is not
among the allowed values. -/
theorem c7_literal_semantics :
    (∀ (allow : Bool) (e m : String) (u : Value) (v : Value),
      (∀ rn fs, v ≠ .record rn fs) → pyEq u v = true →
      build_value allow (.lit (.enum e m u) []) v = .ok (.enum e m u)) ∧
    (∀ (allow : Bool) (first : Value) (rest : List Value) (v : Value),
      (∀ rn fs, v ≠ .record rn fs) →
      (rest = [] → ∀ e m u, first = .enum e m u → pyEq u v = false) →
      (((first :: rest).any fun a => pyEq a v) = true →
        build_value allow (.lit first rest) v = .ok v) ∧
      (((first :: rest).any fun a => pyEq a v) = false →
        build_value allow (.lit first rest) v
          = .error (.valueError .literalNoFit))) := by
  constructor
  · intro allow e m u v hv hpe
    rw [lit_lift allow _ _ v hv]
    simp [literal_call, hpe]
  · intro allow first rest v hv hno
    constructor
    · intro hmem
      rw [lit_lift allow _ _ v hv]
      cases rest with
      | nil =>
        cases first with
        | enum e m u =>
          have := hno rfl e m u rfl
          simp [literal_call, this, literal_member, hmem]
        | _ => simp_all [literal_call, literal_member]
      | cons b l => simp_all [literal_call, literal_member]
    · intro hmem
      rw [lit_lift allow _ _ v hv]
      cases rest with
      | nil =>
        cases first with
        | enum e m u =>
          have := hno rfl e m u rfl
          simp [literal_call, this, literal_member, hmem]
        | _ => simp_all [literal_call, literal_member]
      | cons b l => simp_all [literal_call, literal_member]

/-- C7 counterexample: a dataclass-instance raw value that is not among
the allowed literal values does not fail with the literal mismatch — the
dataclass passthrough returns it unchanged first. -/
theorem c7_record_beats_literal :
    build_value false (.lit (.str "a") []) (.record "A" [])
      = .ok (.record "A" []) ∧
    pyEq (.str "a") (.record "A" []) = false := by
  constructor
  · simp [build_value]
  · simp [pyEq, numVal]

/-- C7 witness: the three behaviors at concrete inputs — the singleton
enum literal `Literal[Color.RED]` decoding `"red"` yields the member, a
plain literal returns a member value unchanged, and a non-member fails. -/
theorem c7_witness :
    build_value false (.lit (.enum "Color" "RED" (.str "red")) []) (.str "red")
      = .ok (.enum "Color" "RED" (.str "red")) ∧
    build_value false (.lit (.str "a") [.str "b"]) (.str "b") = .ok (.str "b") ∧
    build_value false (.lit (.str "a") [.str "b"]) (.str "c")
      = .error (.valueError .literalNoFit) := by
  refine ⟨?_, ?_, ?_⟩
  · exact c7_literal_semantics.1 false "Color" "RED" (.str "red") (.str "red")
      (by simp) (by simp [pyEq])
  · exact (c7_literal_semantics.2 false (.str "a") [.str "b"] (.str "b")
      (by simp) (by simp)).1 (by simp [pyEq])
  · exact (c7_literal_semantics.2 false (.str "a") [.str "b"] (.str "c")
      (by simp) (by simp)).2 (by simp [pyEq])

/-! ### C9: idempotence on well-typed inputs -/

/-- C9.  Decoding a value already of the target kind returns it unchanged:
every primitive against its own descriptor, an enum member of the target
enum class, and a dataclass instance against its own record type. -/
theorem c9_idempotent_on_well_typed :
    (∀ (allow : Bool) (b : Bool),
      build_value allow .bool (.bool b) = .ok (.bool b)) ∧
    (∀ (allow : Bool) (n : Int),
      build_value allow .int (.int n) = .ok (.int n)) ∧
    (∀ (allow : Bool) (q : Rat),
      build_value allow .float (.float q) = .ok (.float q)) ∧
    (∀ (allow : Bool) (s : String),
      build_value allow .str (.str s) = .ok (.str s)) ∧
    (∀ (allow : Bool) (bs : List Nat),
      build_value allow .bytes (.bytes bs) = .ok (.bytes bs)) ∧
    (∀ (allow : Bool) (en : String) (members : List (String × Value))
        (m : String) (u : Value),
      build_value allow (.enum en members) (.enum en m u)
        = .ok (.enum en m u)) ∧
    (∀ (allow : Bool) (rn : String)
        (fields : List (String × Ty × Option Value))
        (fs : List (String × Value)),
      build_value allow (.record rn fields) (.record rn fs)
        = .ok (.record rn fs)) := by
  refine ⟨?_, ?_, ?_, ?_, ?_, ?_, ?_⟩
  · intro allow b; simp [build_value]
  · intro allow n; simp [build_value]
  · intro allow q; simp [build_value]
  · intro allow s; simp [build_value]
  · intro allow bs; simp [build_value]
  · intro allow en members m u; simp [build_value, enum_call]
  · intro allow rn fields fs; exact record_passthrough allow _ rn fs

/-! ### C10: booleans against int and float descriptors -/

/-- C10.  Because `isinstance(value, int)` accepts `bool`, a boolean raw
value decodes against `int` to the corresponding integer and against
`float` to the corresponding float, instead of failing. -/
theorem c10_bool_as_number :
    ∀ (allow : Bool) (b : Bool),
      build_value allow .int (.bool b) = .ok (.int (if b then 1 else 0)) ∧
      build_value allow .float (.bool b)
        = .ok (.float (if b then 1 else 0)) := by
  intro allow b
  constructor <;> simp [build_value]

/-! ### C6: unknown-key handling -/
theorem literal_call_err (first : Value) (rest : List Value) (v : Value)
    (e : PyErr) (h : literal_call first rest v = .error e) :
    e = .valueError .literalNoFit := by
  rw [literal_call.eq_def] at h
  split at h
  · split at h
    · simp at h
    · rw [literal_member] at h
      split at h
      · simp at h
      · simp at h
        exact h.symm
  · rw [literal_member] at h
    split at h
    · simp at h
    · simp at h
      exact h.symm

theorem enum_call_err (en : String) (members : List (String × Value))
    (v : Value) (e : PyErr) (h : enum_call en members v = .error e) :
    e = .valueError .enumNoFit := by
  have hlk : ∀ (h2 : enum_lookup en members v = .error e),
      e = .valueError .enumNoFit := by
    intro h2
    rw [enum_lookup] at h2
    split at h2
    · simp at h2
    · simp at h2
      exact h2.symm
  rw [enum_call.eq_def] at h
  split at h
  · split at h
    · simp at h
    · exact hlk h
  · exact hlk h

theorem enum_lift (allow : Bool) (en : String)
    (members : List (String × Value)) (v : Value)
    (hv : ∀ rn fs, v ≠ .record rn fs) :
    build_value allow (.enum en members) v = enum_call en members v := by
  cases v <;> simp [build_value]
  exact absurd rfl (hv _ _)

set_option maxHeartbeats 3000000 in
theorem no_unknown_bundle (allow : Bool) :
    (∀ (t : Ty) (v : Value), recFree t = true →
      ∀ o ex, build_value allow t v ≠ .error (.valueError (.unknownKeys o ex))) ∧
    (∀ (rn : String) (fields : List (String × Ty × Option Value)) (v : Value),
      True) ∧
    (∀ (fields : List (String × Ty × Option Value))
      (items : List (String × Value)), True) ∧
    (∀ (args : List Ty) (v : Value), recFreeList args = true →
      ∀ o ex, build_value_union allow args v
        ≠ .error (.valueError (.unknownKeys o ex))) ∧
    (∀ (kt vt : Ty) (kvs acc : List (Value × Value)),
      recFree kt = true → recFree vt = true →
      ∀ o ex, build_value_pairs allow kt vt kvs acc
        ≠ .error (.valueError (.unknownKeys o ex))) ∧
    (∀ (args : List Ty) (xs : List Value), recFreeList args = true →
      ∀ o ex, build_tuple allow args xs
        ≠ .error (.valueError (.unknownKeys o ex))) ∧
    (∀ (xs : List Value) (ts : List Ty), recFreeList ts = true →
      ∀ o ex, build_value_zip allow xs ts
        ≠ .error (.valueError (.unknownKeys o ex))) ∧
    (∀ (t : Ty) (vs : List Value), recFree t = true →
      ∀ o ex, build_value_list allow t vs
        ≠ .error (.valueError (.unknownKeys o ex))) := by
  apply build_value.mutual_induct allow
  case case21 =>
    intro first rest v hnr hfree o ex
    rw [lit_lift allow first rest v fun rn fs h => hnr rn fs h]
    intro heq
    have := literal_call_err first rest v _ heq
    simp at this
  case case22 =>
    intro en members v hnr hfree o ex
    rw [enum_lift allow en members v fun rn fs h => hnr rn fs h]
    intro heq
    have := enum_call_err en members v _ heq
    simp at this
  case case23 =>
    intro rn fields v hnr htr hfree o ex
    simp [recFree] at hfree
  case case24 =>
    intro t v c1 c2 c3 c4 c5 c6 c7 c8 c9 c10 c11 c12 c13 c14 c15 c16 c17 c18
      c19 hisi hfree o ex
    cases t <;> cases v <;>
      first
        | (simp [build_value, isinstance]; done)
        | (exfalso; solve_by_elim)
  case case25 =>
    intro t v c1 c2 c3 c4 c5 c6 c7 c8 c9 c10 c11 c12 c13 c14 c15 c16 c17 c18
      c19 hisi hfree o ex
    cases t <;> cases v <;>
      first
        | (simp [build_value, isinstance]; done)
        | (exfalso; solve_by_elim)
  case case39 =>
    intro v t rest a hna hbv ih2 ih1 hfree o ex
    have hm : mismatch a := by
      cases a with
      | typeError => exact Or.inl rfl
      | valueError s => exact Or.inr ⟨s, rfl⟩
      | attributeError => exact absurd rfl hna
    rw [union_skip allow t rest v a hbv hm]
    simp only [recFreeList, Bool.and_eq_true] at hfree
    exact ih1 hfree.2 o ex
  all_goals intros
  all_goals try trivial
  all_goals try (simp_all [build_value, build_value_list, build_tuple,
    build_value_zip, build_value_pairs, build_value_union, recFree,
    recFreeList, isinstance])
  all_goals (split <;> simp)



theorem recFree_of_findField {fields : List (String × Ty × Option Value)}
    {k : String} {fty : Ty} {d : Option Value}
    (hf : recFreeFields fields = true)
    (h : findField fields k = some (fty, d)) : recFree fty = true := by
  induction fields with
  | nil => simp [findField] at h
  | cons f rest ih =>
    obtain ⟨n, ty, dd⟩ := f
    simp only [recFreeFields, List.all_cons, Bool.and_eq_true] at hf
    rw [findField] at h
    split at h
    · cases h
      exact hf.1
    · exact ih hf.2 h

theorem snake_items_err (kvs : List (Value × Value))
    (acc : List (String × Value)) (e : PyErr)
    (h : snake_items kvs acc = .error e) :
    e = .typeError ∨ e = .attributeError := by
  induction kvs generalizing acc with
  | nil => simp [snake_items] at h
  | cons p rest ih =>
    obtain ⟨k, v⟩ := p
    cases k
    all_goals rw [snake_items] at h
    all_goals try (split at h)
    all_goals first
      | exact ih _ h
      | (injection h with h2; exact Or.inl h2.symm)
      | (injection h with h2; exact Or.inr h2.symm)
      | (intros; simp_all)

theorem construct_fields_err (fields : List (String × Ty × Option Value))
    (tr : List (String × Value)) (e : PyErr)
    (h : construct_fields fields tr = .error e) : e = .typeError := by
  induction fields with
  | nil => simp [construct_fields] at h
  | cons f rest ih =>
    obtain ⟨n, ty, d⟩ := f
    cases d
    all_goals rw [construct_fields] at h
    all_goals try (split at h)
    all_goals try (split at h)
    all_goals first
      | (injection h with h2; subst h2; exact ih (by assumption))
      | (injection h with h2; exact h2.symm)
      | (injection h)

theorem construct_record_err (rn : String)
    (fields : List (String × Ty × Option Value))
    (tr : List (String × Value)) (e : PyErr)
    (h : construct_record rn fields tr = .error e) : e = .typeError := by
  rw [construct_record] at h
  split at h
  · injection h
  · injection h with h2
    subst h2
    exact construct_fields_err fields tr _ (by assumption)

theorem build_fields_no_unknown (allow : Bool)
    (fields : List (String × Ty × Option Value))
    (items : List (String × Value)) (hf : recFreeFields fields = true)
    (o ex : List String) :
    build_fields allow fields items
      ≠ .error (.valueError (.unknownKeys o ex)) := by
  induction items with
  | nil => simp [build_fields]
  | cons p rest ih =>
    obtain ⟨k, v⟩ := p
    intro h
    rw [build_fields] at h
    split at h
    · split at h
      · injection h with h2
        subst h2
        exact (no_unknown_bundle allow).1 _ v
          (recFree_of_findField hf (by assumption)) o ex (by assumption)
      · split at h
        · injection h with h2
          subst h2
          exact ih (by assumption)
        · simp at h
    · exact ih h

theorem build_fields_filterKnown (allow : Bool)
    (fields : List (String × Ty × Option Value))
    (items : List (String × Value)) :
    build_fields allow fields items
      = build_fields allow fields
          (items.filter fun p => (findField fields p.1).isSome) := by
  induction items with
  | nil => simp
  | cons p rest ih =>
    obtain ⟨k, v⟩ := p
    rw [List.filter_cons]
    cases hk : findField fields k with
    | some fd =>
      obtain ⟨fty, d⟩ := fd
      rw [if_pos (by simp [hk])]
      simp only [build_fields, hk]
      rw [ih]
    | none =>
      rw [if_neg (by simp [hk])]
      rw [build_fields]
      split
      · exact absurd (by assumption) (by simp [hk])
      · exact ih

/-- C6 counterexample to the claim as stated: the unknown-keys failure is
not characterized by the top-level key set alone.  Decoding
`{"a": {"bogusKey": 1}}` against a record whose only field `a` is itself a
record type leaves the top-level offending set empty (the key `a` is
declared), yet the decode still fails with the unknown-keys `ValueError`,
re-raised from the nested record's own key check during field decoding. -/
theorem c6_nested_unknown_despite_known_top :
    snake_items [(.str "a", .dict [(.str "bogusKey", .int 1)])] []
      = .ok [("a", .dict [(.str "bogusKey", .int 1)])] ∧
    (([("a", Value.dict [(.str "bogusKey", .int 1)])].map Prod.fst).filter
      fun k => (findField
        [("a", Ty.record "S" [("known_key", Ty.int, some (Value.int 7))],
          Option.none)] k).isNone) = [] ∧
    build_dataclass false "R"
      [("a", Ty.record "S" [("known_key", Ty.int, some (Value.int 7))],
        Option.none)]
      (.dict [(.str "a", .dict [(.str "bogusKey", .int 1)])])
      = .error (.valueError (.unknownKeys ["bogus_key"] ["known_key"])) := by
  refine ⟨?_, ?_, ?_⟩
  · simp +decide [snake_items, is_private, strInsert]
  · simp +decide [findField]
  · simp +decide [build_dataclass, snake_items, is_private, strInsert,
      findField, build_fields, build_value]

/-- C6 (amended).  With tolerance off, `build_dataclass` fails with the unknown-keys
`ValueError` exactly when some normalized non-private key names no
declared field: when the offending set is nonempty it raises precisely
that error, reporting the offending normalized keys and the full accepted
field set, before decoding any field; when it is empty (and no nested
record type can smuggle in another unknown-keys error, i.e. the field
annotations are record-free) no unknown-keys error is possible.  With
tolerance on, the unknown keys are simply ignored: the result is computed
from the known-key items alone.  The spec's concrete example behaves as
claimed. -/
theorem c6_unknown_keys :
    (∀ (rn : String) (fields : List (String × Ty × Option Value))
        (kvs : List (Value × Value)) (items : List (String × Value)),
      snake_items kvs [] = .ok items →
      ((items.map Prod.fst).filter fun k => (findField fields k).isNone) ≠ [] →
      build_dataclass false rn fields (.dict kvs)
        = .error (.valueError (.unknownKeys
            ((items.map Prod.fst).filter fun k => (findField fields k).isNone)
            (fields.map fun f => f.1)))) ∧
    (∀ (rn : String) (fields : List (String × Ty × Option Value))
        (kvs : List (Value × Value)) (items : List (String × Value))
        (o ex : List String),
      recFreeFields fields = true →
      snake_items kvs [] = .ok items →
      ((items.map Prod.fst).filter fun k => (findField fields k).isNone) = [] →
      build_dataclass false rn fields (.dict kvs)
        ≠ .error (.valueError (.unknownKeys o ex))) ∧
    (∀ (rn : String) (fields : List (String × Ty × Option Value))
        (kvs : List (Value × Value)) (items : List (String × Value)),
      snake_items kvs [] = .ok items →
      build_dataclass true rn fields (.dict kvs)
        = match build_fields true fields
            (items.filter fun p => (findField fields p.1).isSome) with
          | .error e => .error e
          | .ok tr => construct_record rn fields tr) ∧
    (build_dataclass false "R" [("known_key", .int, some (.int 7))]
        (.dict [(.str "unknownKey", .int 1)])
      = .error (.valueError (.unknownKeys ["unknown_key"] ["known_key"]))) ∧
    (build_dataclass true "R" [("known_key", .int, some (.int 7))]
        (.dict [(.str "unknownKey", .int 1)])
      = .ok (.record "R" [("known_key", .int 7)])) := by
  refine ⟨?_, ?_, ?_, ?_, ?_⟩
  · intro rn fields kvs items hs hne
    rw [build_dataclass, hs]
    have he : (((items.map Prod.fst).filter
        fun k => (findField fields k).isNone).isEmpty) = false := by
      simpa [List.isEmpty_iff] using hne
    simp [he]
  · intro rn fields kvs items o ex hf hs hoff
    rw [build_dataclass, hs]
    have he : (((items.map Prod.fst).filter
        fun k => (findField fields k).isNone).isEmpty) = true := by
      simp [List.isEmpty_iff, hoff]
    simp only [he, Bool.not_true, Bool.and_false, Bool.false_eq_true,
      if_false]
    intro h
    split at h
    · injection h with h2
      subst h2
      exact build_fields_no_unknown false fields items hf o ex (by assumption)
    · exact absurd (construct_record_err rn fields _ _ h) (by simp)
  · intro rn fields kvs items hs
    rw [build_dataclass, hs]
    simp only [Bool.not_true, Bool.false_and, Bool.false_eq_true, if_false]
    rw [build_fields_filterKnown]
  · simp +decide [build_dataclass, snake_items, is_private, strInsert,
      findField]
  · simp +decide [build_dataclass, snake_items, is_private, strInsert,
      findField, build_fields, construct_record, construct_fields, lookupStr]

/-- C6 witness: the universal parts of `c6_unknown_keys` applied at the
spec's concrete example (tolerance off and on), plus the
no-unknown-keys-error direction at a fully-known input. -/
theorem c6_witness :
    build_dataclass false "R" [("known_key", .int, some (.int 7))]
        (.dict [(.str "unknownKey", .int 1)])
      = .error (.valueError (.unknownKeys ["unknown_key"] ["known_key"])) ∧
    build_dataclass true "R" [("known_key", .int, some (.int 7))]
        (.dict [(.str "unknownKey", .int 1)])
      = .ok (.record "R" [("known_key", .int 7)]) ∧
    build_dataclass false "R" [("known_key", .int, some (.int 7))]
        (.dict [(.str "knownKey", .int 5)])
      ≠ .error (.valueError (.unknownKeys ["x"] ["known_key"])) := by
  refine ⟨?_, ?_, ?_⟩
  · have := c6_unknown_keys.1 "R" [("known_key", .int, some (.int 7))]
      [(.str "unknownKey", .int 1)] [("unknown_key", .int 1)]
      (by simp +decide [snake_items, is_private, strInsert])
      (by simp +decide [findField])
    simpa +decide [findField] using this
  · have := c6_unknown_keys.2.2.1 "R" [("known_key", .int, some (.int 7))]
      [(.str "unknownKey", .int 1)] [("unknown_key", .int 1)]
      (by simp +decide [snake_items, is_private, strInsert])
    simpa +decide [findField, build_fields, construct_record,
      construct_fields, lookupStr] using this
  · exact c6_unknown_keys.2.1 "R" [("known_key", .int, some (.int 7))]
      [(.str "knownKey", .int 5)] [("known_key", .int 5)] ["x"] ["known_key"]
      (by simp [recFreeFields, recFree])
      (by simp +decide [snake_items, is_private, strInsert])
      (by simp +decide [findField])

end ParseDataclass
